import Mathlib

/-!
Verification of `src/libs/fonts/scripts/convert-to-static.py` (cloudillo/cloudillo).

The script converts a variable TTF font to a static instance: it opens the
input font, inspects its variation-axis (`fvar`) table, builds an axis-limits
mapping pinning the five known axes (`wght`, `wdth`, `ital`, `slnt`, `opsz`),
invokes fontTools' `instancer.instantiateVariableFont`, saves the result and
maps outcomes to process exit codes.

The embedding below translates the script's own logic directly; the external
fontTools library (opening, instancing, saving fonts, and the filesystem) is
modelled as an environment of opaque functions whose outcomes the script only
branches on.  One modelling assumption about the library is recorded on
`TTFont.bytes`: saving an unmodified font handle writes the handle's own
serialized bytes (the bytes of the file it was opened from), which is how the
`save`-without-instancing path realizes a copy-through.
-/

namespace ConvertToStatic

/-- One entry of the font's `fvar` table: a variation axis with its 4-character
tag and its declared default value (fontTools `Axis.axisTag` / `Axis.defaultValue`). -/
structure Axis where
  axisTag : String
  defaultValue : Int
deriving DecidableEq

/-- Model of a parsed font (fontTools `TTFont`).  `fvar` is the variation-axis
table when present (the Python test `'fvar' in varfont`); `bytes` are the bytes
that `save` writes for this handle — for a handle opened from a file and left
unmodified, the bytes of that file. -/
structure TTFont where
  fvar : Option (List Axis)
  bytes : List Nat
deriving DecidableEq

/-- The axis-limits construction of `convert_variable_to_static` (lines 50-82 of
the script), translated statement by statement: starting from an empty dict,
each of the five known tags is added when present in `axis_tags`; `opsz` is
pinned to the default value found by scanning `fvar.axes` for the first axis
tagged `opsz`.  The Python dict is modelled as an association list in insertion
order (all inserted keys are distinct). -/
def buildAxisLimits (axes : List Axis) (weight : Int) (italic : Bool) :
    List (String × Int) :=
  let axis_tags := axes.map (fun a => a.axisTag)
  let axis_limits : List (String × Int) := []
  let axis_limits :=
    if "wght" ∈ axis_tags then axis_limits ++ [("wght", weight)] else axis_limits
  let axis_limits :=
    if "wdth" ∈ axis_tags then axis_limits ++ [("wdth", 100)] else axis_limits
  let axis_limits :=
    if "ital" ∈ axis_tags then axis_limits ++ [("ital", if italic then 1 else 0)]
    else axis_limits
  let axis_limits :=
    if "slnt" ∈ axis_tags then axis_limits ++ [("slnt", if italic then -12 else 0)]
    else axis_limits
  let axis_limits :=
    if "opsz" ∈ axis_tags then
      match axes.find? (fun a => a.axisTag == "opsz") with
      | some a => axis_limits ++ [("opsz", a.defaultValue)]
      | none => axis_limits
    else axis_limits
  axis_limits

/-- The five axis tags the script knows how to pin. -/
def knownAxisTags : List String := ["wght", "wdth", "ital", "slnt", "opsz"]

/-- Follows the spec's words (§4.1, Axis Pinning Policy): the pinned value the
spec prescribes for tag `t` given the set of available tags — `weight` for
`wght`, `100` for `wdth`, `1`/`0` for `ital`, `-12`/`0` for `slnt`, the axis's
own declared default for `opsz`, and no entry for any other tag or for a tag
the font does not have. -/
def specAxisLimit (axes : List Axis) (weight : Int) (italic : Bool) (t : String) :
    Option Int :=
  if t ∈ axes.map (fun a => a.axisTag) then
    if t = "wght" then some weight
    else if t = "wdth" then some 100
    else if t = "ital" then some (if italic then 1 else 0)
    else if t = "slnt" then some (if italic then -12 else 0)
    else if t = "opsz" then
      (axes.find? (fun a => a.axisTag == "opsz")).map (fun a => a.defaultValue)
    else none
  else none

theorem lookup_append (t : String) (l₁ l₂ : List (String × Int)) :
    (l₁ ++ l₂).lookup t = ((l₁.lookup t).orElse (fun _ => l₂.lookup t)) := by
  induction l₁ with
  | nil => simp [List.lookup]
  | cons p l ih =>
    obtain ⟨k, v⟩ := p
    by_cases h : t = k
    · subst h
      simp [List.lookup]
    · simp [List.lookup, beq_eq_false_iff_ne.mpr h, ih]

theorem lookup_cond_singleton (t k : String) (v : Int) (c : Prop) [Decidable c] :
    ((if c then [(k, v)] else []) : List (String × Int)).lookup t
      = if c ∧ t = k then some v else none := by
  by_cases hc : c <;> by_cases ht : t = k
  · subst ht; simp [List.lookup, hc]
  · simp [List.lookup, beq_eq_false_iff_ne.mpr ht, hc, ht]
  · subst ht; simp [List.lookup, hc]
  · simp [List.lookup, hc, ht]

theorem lookup_opsz_chunk_ne (axes : List Axis) (t : String) (ht : t ≠ "opsz") :
    ((if "opsz" ∈ axes.map (fun a => a.axisTag) then
        match axes.find? (fun a => a.axisTag == "opsz") with
        | some a => [("opsz", a.defaultValue)]
        | none => []
      else []) : List (String × Int)).lookup t = none := by
  have hb : (t == "opsz") = false := beq_eq_false_iff_ne.mpr ht
  by_cases h5 : "opsz" ∈ axes.map (fun a => a.axisTag) <;>
    rcases hf : axes.find? (fun a => a.axisTag == "opsz") with _ | a <;>
      simp [h5, hf, List.lookup, hb]

theorem find_opsz_isSome (axes : List Axis)
    (h : "opsz" ∈ axes.map (fun a => a.axisTag)) :
    ∃ a, axes.find? (fun a => a.axisTag == "opsz") = some a := by
  rw [List.mem_map] at h
  obtain ⟨a, ha, hat⟩ := h
  have hs : (axes.find? (fun a => a.axisTag == "opsz")).isSome := by
    rw [List.find?_isSome]
    exact ⟨a, ha, by simp [hat]⟩
  exact Option.isSome_iff_exists.mp hs

theorem buildAxisLimits_eq_chunks (axes : List Axis) (w : Int) (i : Bool) :
    buildAxisLimits axes w i =
      (if "wght" ∈ axes.map (fun a => a.axisTag) then [("wght", w)] else [])
      ++ ((if "wdth" ∈ axes.map (fun a => a.axisTag) then [("wdth", 100)] else [])
      ++ ((if "ital" ∈ axes.map (fun a => a.axisTag) then
            [("ital", if i then 1 else 0)] else [])
      ++ ((if "slnt" ∈ axes.map (fun a => a.axisTag) then
            [("slnt", if i then -12 else 0)] else [])
      ++ (if "opsz" ∈ axes.map (fun a => a.axisTag) then
            match axes.find? (fun a => a.axisTag == "opsz") with
            | some a => [("opsz", a.defaultValue)]
            | none => []
          else [])))) := by
  unfold buildAxisLimits
  by_cases h1 : "wght" ∈ axes.map (fun a => a.axisTag) <;>
  by_cases h2 : "wdth" ∈ axes.map (fun a => a.axisTag) <;>
  by_cases h3 : "ital" ∈ axes.map (fun a => a.axisTag) <;>
  by_cases h4 : "slnt" ∈ axes.map (fun a => a.axisTag) <;>
  by_cases h5 : "opsz" ∈ axes.map (fun a => a.axisTag) <;>
  cases hf : axes.find? (fun a => a.axisTag == "opsz") <;>
  simp [h1, h2, h3, h4, h5, hf]

theorem opsz_chunk_key (axes : List Axis) (s : String) (hs : s ≠ "opsz") :
    ∀ (a : String) (b : Int),
      ∀ x ∈ axes, x.axisTag = "opsz" →
        ((a, b) ∈ (match axes.find? (fun x => x.axisTag == "opsz") with
                   | some x => [("opsz", x.defaultValue)]
                   | none => ([] : List (String × Int)))) → ¬s = a := by
  intro a b x hx hxt hm
  rcases hf : axes.find? (fun x => x.axisTag == "opsz") with _ | y
  · rw [hf] at hm
    simp at hm
  · rw [hf] at hm
    simp at hm
    intro he
    exact hs (he.trans hm.1)

theorem lookup_buildAxisLimits (axes : List Axis) (weight : Int) (italic : Bool)
    (t : String) :
    (buildAxisLimits axes weight italic).lookup t
      = specAxisLimit axes weight italic t := by
  rw [buildAxisLimits_eq_chunks]
  by_cases ht1 : t = "wght"
  · subst ht1
    have hop := lookup_opsz_chunk_ne axes "wght" (by decide)
    by_cases h1 : "wght" ∈ axes.map (fun a => a.axisTag) <;>
      simp [lookup_append, lookup_cond_singleton, hop,
        specAxisLimit, h1, Option.orElse]
    exact opsz_chunk_key axes "wght" (by decide)
  · by_cases ht2 : t = "wdth"
    · subst ht2
      have hop := lookup_opsz_chunk_ne axes "wdth" (by decide)
      by_cases h2 : "wdth" ∈ axes.map (fun a => a.axisTag) <;>
        simp [lookup_append, lookup_cond_singleton, hop,
          specAxisLimit, h2, Option.orElse]
      exact opsz_chunk_key axes "wdth" (by decide)
    · by_cases ht3 : t = "ital"
      · subst ht3
        have hop := lookup_opsz_chunk_ne axes "ital" (by decide)
        by_cases h3 : "ital" ∈ axes.map (fun a => a.axisTag) <;>
          simp [lookup_append, lookup_cond_singleton, hop,
            specAxisLimit, h3, Option.orElse]
        exact opsz_chunk_key axes "ital" (by decide)
      · by_cases ht4 : t = "slnt"
        · subst ht4
          have hop := lookup_opsz_chunk_ne axes "slnt" (by decide)
          by_cases h4 : "slnt" ∈ axes.map (fun a => a.axisTag) <;>
            simp [lookup_append, lookup_cond_singleton, hop,
              specAxisLimit, h4, Option.orElse]
          exact opsz_chunk_key axes "slnt" (by decide)
        · by_cases ht5 : t = "opsz"
          · subst ht5
            by_cases h5 : "opsz" ∈ axes.map (fun a => a.axisTag)
            · obtain ⟨a, hf⟩ := find_opsz_isSome axes h5
              simp [lookup_append, lookup_cond_singleton, specAxisLimit, h5, hf,
                ht1, ht2, ht3, ht4, List.lookup, Option.orElse]
            · simp [lookup_append, lookup_cond_singleton, specAxisLimit, h5,
                ht1, ht2, ht3, ht4, Option.orElse]
          · have hop := lookup_opsz_chunk_ne axes t ht5
            by_cases hmem : t ∈ axes.map (fun a => a.axisTag) <;>
              simp [lookup_append, lookup_cond_singleton, hop,
                specAxisLimit, hmem, ht1, ht2, ht3, ht4, ht5, Option.orElse] <;>
              exact opsz_chunk_key axes t ht5

/-- Environment of external effects the script only branches on: the fontTools
library (opening a font file, the instancer, saving a font to the output path)
and the filesystem existence test used by `main`.  `instancer` and `save` return
`Except`: an `error` models the Python call raising an exception with that
message; `save` returning `ok` means the output file was written.  The script
itself never constructs fonts or raises — it only consumes these outcomes. -/
structure Env where
  openFont : String → TTFont
  instancer : TTFont → List (String × Int) → Except String TTFont
  save : TTFont → Except String Unit
  fileExists : String → Bool

instance {ε α : Type} [DecidableEq ε] [DecidableEq α] :
    DecidableEq (Except ε α) := fun a b =>
  match a, b with
  | Except.error e₁, Except.error e₂ =>
    if h : e₁ = e₂ then isTrue (by rw [h])
    else isFalse (by intro hc; cases hc; exact h rfl)
  | Except.error _, Except.ok _ => isFalse (by intro hc; cases hc)
  | Except.ok _, Except.error _ => isFalse (by intro hc; cases hc)
  | Except.ok a₁, Except.ok a₂ =>
    if h : a₁ = a₂ then isTrue (by rw [h])
    else isFalse (by intro hc; cases hc; exact h rfl)

/-- Observable outcome of one call to `convert_variable_to_static`:
`returned = Except.ok b` means the function returned `b`; `returned =
Except.error m` means an exception with message `m` propagated out of the
function uncaught.  `written` is the content of the output file when a save
succeeded; `pinned` is the axis-limits dict printed by the `Pinning axes` line;
`loggedError` is the message of the `Error creating static instance` line;
`instancerCalls` counts invocations of the external instancer;
`varfontClosed` records whether `varfont.close()` ran. -/
structure ConvOutcome where
  returned : Except String Bool
  written : Option (List Nat)
  pinned : Option (List (String × Int))
  loggedError : Option String
  instancerCalls : Nat
  varfontClosed : Bool
deriving DecidableEq

/-- Translation of `convert_variable_to_static` (lines 30-102 of the script):
open the input font; if it has no `fvar` table, save it unchanged to the output
path and return `True`; otherwise build the axis limits and, inside a
`try`/`except Exception` block, call the instancer and save the static result —
on success close both fonts and return `True`, on any exception print the
message, close the input font and return `False`.  Note the copy-through path's
`save` is outside the `try` block, so a failure there propagates
(`returned = Except.error`) with the input handle never closed. -/
def convert_variable_to_static (env : Env) (input_path : String)
    (weight : Int) (italic : Bool) : ConvOutcome :=
  let varfont := env.openFont input_path
  match varfont.fvar with
  | none =>
    match env.save varfont with
    | Except.error e =>
      { returned := Except.error e, written := none, pinned := none,
        loggedError := none, instancerCalls := 0, varfontClosed := false }
    | Except.ok _ =>
      { returned := Except.ok true, written := some varfont.bytes, pinned := none,
        loggedError := none, instancerCalls := 0, varfontClosed := true }
  | some axes =>
    let axis_limits := buildAxisLimits axes weight italic
    match env.instancer varfont axis_limits with
    | Except.ok static_font =>
      match env.save static_font with
      | Except.ok _ =>
        { returned := Except.ok true, written := some static_font.bytes,
          pinned := some axis_limits, loggedError := none, instancerCalls := 1,
          varfontClosed := true }
      | Except.error e =>
        { returned := Except.ok false, written := none,
          pinned := some axis_limits, loggedError := some e, instancerCalls := 1,
          varfontClosed := true }
    | Except.error e =>
      { returned := Except.ok false, written := none, pinned := some axis_limits,
        loggedError := some e, instancerCalls := 1, varfontClosed := true }

/-- Model of Python's `str.lower()` on the ASCII tokens the CLI compares
(character-wise lowercasing). -/
def pyLower (s : String) : String := ⟨s.data.map Char.toLower⟩

/-- Leading and trailing whitespace removal on a character list, modelling the
whitespace stripping Python's `int(str)` performs. -/
def pyStripChars (l : List Char) : List Char :=
  ((l.dropWhile Char.isWhitespace).reverse.dropWhile Char.isWhitespace).reverse

/-- Model of the fragment of Python's `int(str)` the CLI relies on: surrounding
whitespace is stripped, an optional single leading sign is allowed, and the rest
must be one or more decimal digits; anything else raises `ValueError`
(modelled as `none`). -/
def parsePyInt (s : String) : Option Int :=
  let t := pyStripChars s.data
  let p :=
    match t with
    | '-' :: rest => ((-1 : Int), rest)
    | '+' :: rest => ((1 : Int), rest)
    | _ => ((1 : Int), t)
  if p.2 ≠ [] ∧ p.2.all Char.isDigit then
    some (p.1 * (p.2.foldl (fun n c => 10 * n + (c.toNat - 48)) 0 : Nat))
  else none

/-- Line 123 of the script:
`italic = len(sys.argv) > 4 and sys.argv[4].lower() == 'italic'`. -/
def italicArg (argv : List String) : Bool :=
  decide (4 < argv.length) && (pyLower (argv.getD 4 "") == "italic")

/-- How the process run ends, as observed from outside:
`usageExit` — the usage text was printed and `sys.exit(1)` ran;
`uncaught m` — an exception with message `m` escaped `main` (the interpreter
terminates with a non-zero status outside the script's exit-code contract);
`inputNotFound p` — the `Input file not found` message was printed for path `p`
and `sys.exit(1)` ran; `exitC c` — the conversion ran and `sys.exit(c)` ran. -/
inductive MainOutcome where
  | usageExit : MainOutcome
  | uncaught : String → MainOutcome
  | inputNotFound : String → MainOutcome
  | exitC : Nat → MainOutcome
deriving DecidableEq

/-- Result of a run of `main`: whether `TTFont(input_path)` was ever reached
(`fontOpened`), the conversion's outcome when the conversion ran, and how the
process ended. -/
structure MainResult where
  fontOpened : Bool
  conv : Option ConvOutcome
  outcome : MainOutcome
deriving DecidableEq

/-- The exit status `sys.exit` was called with, when the script itself chose
one; `none` for a termination by uncaught exception. -/
def MainOutcome.exitCode : MainOutcome → Option Nat
  | MainOutcome.usageExit => some 1
  | MainOutcome.uncaught _ => none
  | MainOutcome.inputNotFound _ => some 1
  | MainOutcome.exitC c => some c

/-- Translation of `main` (lines 105-140 of the script): with fewer than 4
entries in `sys.argv` (program name plus 3 positional arguments) print usage and
exit 1; then parse the weight with `int()` (a `ValueError` here is uncaught and
precedes the existence check); compute the italic flag; if the input path does
not exist print the message and exit 1; otherwise run the conversion and exit 0
on success, 1 on failure, letting any exception out of the conversion
propagate. -/
def main (env : Env) (argv : List String) : MainResult :=
  if argv.length < 4 then
    { fontOpened := false, conv := none, outcome := MainOutcome.usageExit }
  else
    let input_file := argv.getD 1 ""
    match parsePyInt (argv.getD 3 "") with
    | none =>
      { fontOpened := false, conv := none,
        outcome := MainOutcome.uncaught ("invalid literal for int: " ++ argv.getD 3 "") }
    | some weight =>
      let italic := italicArg argv
      if env.fileExists input_file then
        let o := convert_variable_to_static env input_file weight italic
        match o.returned with
        | Except.error m =>
          { fontOpened := true, conv := some o, outcome := MainOutcome.uncaught m }
        | Except.ok true =>
          { fontOpened := true, conv := some o, outcome := MainOutcome.exitC 0 }
        | Except.ok false =>
          { fontOpened := true, conv := some o, outcome := MainOutcome.exitC 1 }
      else
        { fontOpened := false, conv := none,
          outcome := MainOutcome.inputNotFound input_file }

/-- A static font fixture (no `fvar` table). -/
def fontStatic : TTFont := { fvar := none, bytes := [0, 1, 0, 0] }

/-- A variable font fixture with a single `wght` axis. -/
def fontWght : TTFont :=
  { fvar := some [{ axisTag := "wght", defaultValue := 400 }], bytes := [1, 2] }

/-- A variable font fixture whose only axis tag is outside the five the script
pins. -/
def fontGrad : TTFont :=
  { fvar := some [{ axisTag := "GRAD", defaultValue := 0 }], bytes := [3, 4] }

/-- The static font an instancer fixture returns. -/
def fontOut : TTFont := { fvar := none, bytes := [9, 9, 9] }

/-- Environment fixture: every external call succeeds, input is static. -/
def envOk : Env :=
  { openFont := fun _ => fontStatic,
    instancer := fun _ _ => Except.ok fontOut,
    save := fun _ => Except.ok (),
    fileExists := fun _ => true }

/-- Environment fixture: variable input font, all external calls succeed. -/
def envVarOk : Env :=
  { openFont := fun _ => fontWght,
    instancer := fun _ _ => Except.ok fontOut,
    save := fun _ => Except.ok (),
    fileExists := fun _ => true }

/-- Environment fixture: variable input font, the instancer raises. -/
def envVarFail : Env :=
  { openFont := fun _ => fontWght,
    instancer := fun _ _ => Except.error "instancer failed",
    save := fun _ => Except.ok (),
    fileExists := fun _ => true }

/-- Environment fixture: variable input font, instancing succeeds but writing
the output raises. -/
def envWriteFail : Env :=
  { openFont := fun _ => fontWght,
    instancer := fun _ _ => Except.ok fontOut,
    save := fun _ => Except.error "disk full",
    fileExists := fun _ => true }

/-- Environment fixture: static input font and a failing output write. -/
def envCopyWriteFail : Env :=
  { openFont := fun _ => fontStatic,
    instancer := fun _ _ => Except.ok fontOut,
    save := fun _ => Except.error "disk full",
    fileExists := fun _ => true }

/-- Environment fixture: the input path does not exist. -/
def envNoFile : Env :=
  { openFont := fun _ => fontStatic,
    instancer := fun _ _ => Except.ok fontOut,
    save := fun _ => Except.ok (),
    fileExists := fun _ => false }

/-- C1: for every list of axes, integer weight and italic flag, the computed
axis-limits map agrees, key by key, with the spec's pinning policy
(`specAxisLimit`): its keys are exactly the font's tags among
`wght`/`wdth`/`ital`/`slnt`/`opsz`, with `wght ↦ weight`, `wdth ↦ 100`,
`ital ↦ 1/0`, `slnt ↦ -12/0` and `opsz ↦` the axis's own declared default; and
when the font has none of the five tags the map is empty. -/
theorem axisLimits_policy (axes : List Axis) (weight : Int) (italic : Bool) :
    (∀ t : String, (buildAxisLimits axes weight italic).lookup t
        = specAxisLimit axes weight italic t)
    ∧ ((∀ a ∈ axes, a.axisTag ∉ knownAxisTags) →
        buildAxisLimits axes weight italic = []) := by
  refine ⟨fun t => lookup_buildAxisLimits axes weight italic t, fun h => ?_⟩
  have hn : ∀ s : String, s ∈ knownAxisTags →
      s ∉ axes.map (fun a => a.axisTag) := by
    intro s hs hmem
    rw [List.mem_map] at hmem
    obtain ⟨a, ha, hat⟩ := hmem
    exact h a ha (hat ▸ hs)
  have h1 := hn "wght" (by decide)
  have h2 := hn "wdth" (by decide)
  have h3 := hn "ital" (by decide)
  have h4 := hn "slnt" (by decide)
  have h5 := hn "opsz" (by decide)
  simp [buildAxisLimits, h1, h2, h3, h4, h5]

/-- C1 witness. -/
theorem axisLimits_policy_witness :
    (buildAxisLimits [{ axisTag := "wght", defaultValue := 400 },
        { axisTag := "wdth", defaultValue := 100 },
        { axisTag := "slnt", defaultValue := 0 }] 400 false).lookup "wght"
      = specAxisLimit [{ axisTag := "wght", defaultValue := 400 },
        { axisTag := "wdth", defaultValue := 100 },
        { axisTag := "slnt", defaultValue := 0 }] 400 false "wght"
    ∧ buildAxisLimits [{ axisTag := "GRAD", defaultValue := 0 }] 400 false = [] :=
  ⟨(axisLimits_policy _ 400 false).1 "wght",
   (axisLimits_policy [{ axisTag := "GRAD", defaultValue := 0 }] 400 false).2
     (by decide)⟩

/-- C2 counterexample: in a font whose `fvar` set is `{GRAD}`, the tag `GRAD`
is present in the font but absent from the computed axis-limits map, so the
map's keys are not all of the font's tags. -/
theorem axisLimits_tag_iff_cex :
    "GRAD" ∈ ([{ axisTag := "GRAD", defaultValue := 0 }] : List Axis).map
        (fun a => a.axisTag)
    ∧ (buildAxisLimits [{ axisTag := "GRAD", defaultValue := 0 }] 400
        false).lookup "GRAD" = none := by
  constructor
  · decide
  · rfl

/-- C2 (amended): the axis-limits map contains an entry for tag `T` iff `T` is
present in the font's `fvar` set AND `T` is one of the five known tags
`wght`/`wdth`/`ital`/`slnt`/`opsz`; in particular no tag absent from the font
appears in the map, but a font tag outside the five is omitted. -/
theorem axisLimits_tag_iff (axes : List Axis) (weight : Int) (italic : Bool)
    (t : String) :
    ((buildAxisLimits axes weight italic).lookup t).isSome
      ↔ (t ∈ axes.map (fun a => a.axisTag) ∧ t ∈ knownAxisTags) := by
  rw [lookup_buildAxisLimits]
  constructor
  · intro hs
    by_cases hmem : t ∈ axes.map (fun a => a.axisTag)
    · refine ⟨hmem, ?_⟩
      unfold specAxisLimit at hs
      rw [if_pos hmem] at hs
      by_cases h1 : t = "wght"
      · simp [knownAxisTags, h1]
      by_cases h2 : t = "wdth"
      · simp [knownAxisTags, h2]
      by_cases h3 : t = "ital"
      · simp [knownAxisTags, h3]
      by_cases h4 : t = "slnt"
      · simp [knownAxisTags, h4]
      by_cases h5 : t = "opsz"
      · simp [knownAxisTags, h5]
      rw [if_neg h1, if_neg h2, if_neg h3, if_neg h4, if_neg h5] at hs
      simp at hs
    · unfold specAxisLimit at hs
      rw [if_neg hmem] at hs
      simp at hs
  · rintro ⟨hmem, hk⟩
    unfold specAxisLimit
    rw [if_pos hmem]
    simp only [knownAxisTags, List.mem_cons, List.mem_singleton] at hk
    rcases hk with rfl | rfl | rfl | rfl | rfl | hk
    · simp
    · simp
    · simp
    · simp
    · obtain ⟨a, hf⟩ := find_opsz_isSome axes hmem
      simp [hf]
    · simp at hk

/-- C2 (amended) witness. -/
theorem axisLimits_tag_iff_witness :
    ((buildAxisLimits [{ axisTag := "wght", defaultValue := 400 }] 700
        true).lookup "wght").isSome
      ↔ ("wght" ∈ ([{ axisTag := "wght", defaultValue := 400 }] : List Axis).map
            (fun a => a.axisTag)
          ∧ "wght" ∈ knownAxisTags) :=
  axisLimits_tag_iff [{ axisTag := "wght", defaultValue := 400 }] 700 true "wght"

/-- C3: for every input font with no `fvar` table (and a write that the
filesystem accepts), the conversion never calls the instancer, writes the input
handle's own bytes — byte-for-byte the input file, under the model that saving
an unmodified handle writes the bytes it was opened from — and returns
success. -/
theorem static_font_copy_through (env : Env) (p : String) (w : Int) (i : Bool)
    (hf : (env.openFont p).fvar = none)
    (hs : env.save (env.openFont p) = Except.ok ()) :
    (convert_variable_to_static env p w i).returned = Except.ok true
    ∧ (convert_variable_to_static env p w i).written
        = some (env.openFont p).bytes
    ∧ (convert_variable_to_static env p w i).instancerCalls = 0 := by
  simp [convert_variable_to_static, hf, hs]

/-- C3 witness. -/
theorem static_font_copy_through_witness :
    (convert_variable_to_static envOk "in.ttf" 400 false).returned
        = Except.ok true
    ∧ (convert_variable_to_static envOk "in.ttf" 400 false).written
        = some (envOk.openFont "in.ttf").bytes
    ∧ (convert_variable_to_static envOk "in.ttf" 400 false).instancerCalls = 0 :=
  static_font_copy_through envOk "in.ttf" 400 false rfl rfl

/-- C4: whenever the instancer raises, the exception is caught rather than
propagated (`returned = Except.ok false`, a failure signal), the underlying
message is logged, the input font handle is closed, the instancer is invoked
exactly once, and a `main` run that reaches this conversion exits with code 1. -/
theorem instancing_failure_contained (env : Env) (p : String) (w : Int)
    (i : Bool) (axes : List Axis) (msg : String)
    (hf : (env.openFont p).fvar = some axes)
    (hi : env.instancer (env.openFont p) (buildAxisLimits axes w i)
        = Except.error msg) :
    (convert_variable_to_static env p w i).returned = Except.ok false
    ∧ (convert_variable_to_static env p w i).loggedError = some msg
    ∧ (convert_variable_to_static env p w i).varfontClosed = true
    ∧ (convert_variable_to_static env p w i).instancerCalls = 1
    ∧ (∀ argv : List String, 4 ≤ argv.length
        → argv.getD 1 "" = p
        → parsePyInt (argv.getD 3 "") = some w
        → italicArg argv = i
        → env.fileExists p = true
        → (main env argv).outcome = MainOutcome.exitC 1) := by
  have hconv : convert_variable_to_static env p w i =
      { returned := Except.ok false, written := none,
        pinned := some (buildAxisLimits axes w i), loggedError := some msg,
        instancerCalls := 1, varfontClosed := true } := by
    simp [convert_variable_to_static, hf, hi]
  refine ⟨by rw [hconv], by rw [hconv], by rw [hconv], by rw [hconv], ?_⟩
  intro argv hlen h1 h3 h4 hex
  have hlt : ¬ argv.length < 4 := by omega
  rw [List.getD_eq_getElem?_getD] at h1 h3
  simp [main, hlt, h1, h3, h4, hex, hconv]

/-- C4 witness. -/
theorem instancing_failure_contained_witness :
    (convert_variable_to_static envVarFail "in.ttf" 400 false).returned
        = Except.ok false
    ∧ (main envVarFail ["prog", "in.ttf", "out.ttf", "400"]).outcome
        = MainOutcome.exitC 1 := by
  obtain ⟨hr, _, _, _, hm⟩ :=
    instancing_failure_contained envVarFail "in.ttf" 400 false
      [{ axisTag := "wght", defaultValue := 400 }] "instancer failed" rfl rfl
  exact ⟨hr, hm ["prog", "in.ttf", "out.ttf", "400"] (by decide) rfl
    (by decide) (by decide) rfl⟩

/-- C5 counterexample: with a variable input font, a successful instancing and
a write that raises, the write failure is caught by the script's own
`except Exception` handler — the conversion returns the failure signal
(`Except.ok false`, not a propagated exception) and the process exits through
the script's own exit-1 path, contradicting the claim that a write failure is
never mapped there. -/
theorem write_failure_caught_cex :
    (convert_variable_to_static envWriteFail "in.ttf" 400 false).returned
        = Except.ok false
    ∧ (convert_variable_to_static envWriteFail "in.ttf" 400 false).loggedError
        = some "disk full"
    ∧ (main envWriteFail ["prog", "in.ttf", "out.ttf", "400"]).outcome
        = MainOutcome.exitC 1 := by
  refine ⟨rfl, rfl, ?_⟩
  decide

/-- C5 (amended): a write failure on the copy-through path is indeed not
handled — the exception propagates out of the conversion uncaught (and through
`main`), terminating the process outside the script's exit-code contract, with
the input handle left open; but on the instancing path the output write happens
inside the same `try`/`except` as the instancing call, so a write failure there
is caught and mapped to the script's failure-signal/exit-1 path. -/
theorem write_failure_paths (env : Env) (p : String) (w : Int) (i : Bool)
    (e : String) :
    ((env.openFont p).fvar = none →
      env.save (env.openFont p) = Except.error e →
      (convert_variable_to_static env p w i).returned = Except.error e
      ∧ (convert_variable_to_static env p w i).varfontClosed = false
      ∧ (∀ argv : List String, 4 ≤ argv.length
          → argv.getD 1 "" = p
          → parsePyInt (argv.getD 3 "") = some w
          → italicArg argv = i
          → env.fileExists p = true
          → (main env argv).outcome = MainOutcome.uncaught e
            ∧ (main env argv).outcome.exitCode = none))
    ∧ (∀ axes static_font, (env.openFont p).fvar = some axes →
        env.instancer (env.openFont p) (buildAxisLimits axes w i)
            = Except.ok static_font →
        env.save static_font = Except.error e →
        (convert_variable_to_static env p w i).returned = Except.ok false
        ∧ (convert_variable_to_static env p w i).loggedError = some e) := by
  constructor
  · intro hf hs
    have hconv : convert_variable_to_static env p w i =
        { returned := Except.error e, written := none, pinned := none,
          loggedError := none, instancerCalls := 0, varfontClosed := false } := by
      simp [convert_variable_to_static, hf, hs]
    refine ⟨by rw [hconv], by rw [hconv], ?_⟩
    intro argv hlen h1 h3 h4 hex
    have hlt : ¬ argv.length < 4 := by omega
    rw [List.getD_eq_getElem?_getD] at h1 h3
    constructor
    · simp [main, hlt, h1, h3, h4, hex, hconv]
    · simp [main, hlt, h1, h3, h4, hex, hconv, MainOutcome.exitCode]
  · intro axes static_font hf hi hs
    have hconv : convert_variable_to_static env p w i =
        { returned := Except.ok false, written := none,
          pinned := some (buildAxisLimits axes w i), loggedError := some e,
          instancerCalls := 1, varfontClosed := true } := by
      simp [convert_variable_to_static, hf, hi, hs]
    exact ⟨by rw [hconv], by rw [hconv]⟩

/-- C5 (amended) witness. -/
theorem write_failure_paths_witness :
    (convert_variable_to_static envCopyWriteFail "in.ttf" 400 false).returned
        = Except.error "disk full"
    ∧ (convert_variable_to_static envWriteFail "in.ttf" 400 false).returned
        = Except.ok false := by
  refine ⟨((write_failure_paths envCopyWriteFail "in.ttf" 400 false
      "disk full").1 rfl rfl).1, ?_⟩
  exact ((write_failure_paths envWriteFail "in.ttf" 400 false "disk full").2
    [{ axisTag := "wght", defaultValue := 400 }] fontOut rfl rfl rfl).1

/-- C6: on every path on which the conversion function returns (copy-through
success, instancing success, and instancing failure — the only returning
paths), the input font handle has been closed. -/
theorem handle_closed_on_return (env : Env) (p : String) (w : Int) (i : Bool)
    (b : Bool)
    (h : (convert_variable_to_static env p w i).returned = Except.ok b) :
    (convert_variable_to_static env p w i).varfontClosed = true := by
  unfold convert_variable_to_static at h ⊢
  rcases hfv : (env.openFont p).fvar with _ | axes <;> simp [hfv] at h ⊢
  · rcases hs : env.save (env.openFont p) with e | u <;> simp [hs] at h ⊢
  · rcases hi : env.instancer (env.openFont p) (buildAxisLimits axes w i)
        with e | sf <;> simp [hi] at h ⊢
    rcases hs : env.save sf with e | u <;> simp [hs] at h ⊢

/-- C6 witness. -/
theorem handle_closed_on_return_witness :
    (convert_variable_to_static envOk "in.ttf" 400 false).varfontClosed
      = true :=
  handle_closed_on_return envOk "in.ttf" 400 false true rfl

/-- C7: with fewer than the three required positional arguments (fewer than 4
`sys.argv` entries) `main` prints the usage text and exits 1 without opening
the font; with enough arguments, a parseable weight, and an input path that
does not exist, `main` prints the not-found error and exits 1, again without
ever opening the font file. -/
theorem cli_arg_validation (env : Env) (argv : List String) :
    (argv.length < 4 →
      main env argv
        = { fontOpened := false, conv := none,
            outcome := MainOutcome.usageExit }
      ∧ MainOutcome.usageExit.exitCode = some 1)
    ∧ (∀ w : Int, 4 ≤ argv.length →
        parsePyInt (argv.getD 3 "") = some w →
        env.fileExists (argv.getD 1 "") = false →
        main env argv
          = { fontOpened := false, conv := none,
              outcome := MainOutcome.inputNotFound (argv.getD 1 "") }
        ∧ (MainOutcome.inputNotFound (argv.getD 1 "")).exitCode = some 1) := by
  constructor
  · intro h
    exact ⟨by simp [main, h], rfl⟩
  · intro w hlen hw hex
    have hlt : ¬ argv.length < 4 := by omega
    rw [List.getD_eq_getElem?_getD] at hw hex
    refine ⟨?_, rfl⟩
    rw [List.getD_eq_getElem?_getD]
    simp [main, hlt, hw, hex]

/-- C7 witness. -/
theorem cli_arg_validation_witness :
    main envNoFile ["prog", "missing.ttf"]
      = { fontOpened := false, conv := none,
          outcome := MainOutcome.usageExit }
    ∧ main envNoFile ["prog", "missing.ttf", "out.ttf", "400"]
        = { fontOpened := false, conv := none,
            outcome := MainOutcome.inputNotFound "missing.ttf" } := by
  constructor
  · exact ((cli_arg_validation envNoFile ["prog", "missing.ttf"]).1
      (by decide)).1
  · exact ((cli_arg_validation envNoFile
      ["prog", "missing.ttf", "out.ttf", "400"]).2 400 (by decide) (by decide)
      rfl).1

/-- C8: the italic flag is `true` iff a fourth positional argument (a fifth
`sys.argv` entry) is supplied and it equals the token `italic` under
case-insensitive (lowercased) comparison; any other value or its absence means
non-italic. -/
theorem italic_flag_spec (argv : List String) :
    italicArg argv = true
      ↔ (4 < argv.length ∧ pyLower (argv.getD 4 "") = pyLower "italic") := by
  have hlow : pyLower "italic" = "italic" := rfl
  rw [hlow]
  unfold italicArg
  simp [Bool.and_eq_true, decide_eq_true_eq, beq_iff_eq]

/-- C8 witness. -/
theorem italic_flag_spec_witness :
    italicArg ["prog", "in.ttf", "out.ttf", "400", "ITALIC"] = true
      ↔ (4 < (["prog", "in.ttf", "out.ttf", "400", "ITALIC"] : List String).length
          ∧ pyLower (["prog", "in.ttf", "out.ttf", "400",
              "ITALIC"].getD 4 "") = pyLower "italic") :=
  italic_flag_spec ["prog", "in.ttf", "out.ttf", "400", "ITALIC"]

/-- C9: when the third positional argument is not parseable as an integer, the
run terminates through the uncaught `ValueError` raised by `int()` before the
input-path existence check — the font is never opened and, for every
environment (in particular one where the input path does not exist), the
`Input file not found` branch is never reached. -/
theorem weight_parse_precedes_existence (env : Env) (argv : List String)
    (hlen : 4 ≤ argv.length)
    (hw : parsePyInt (argv.getD 3 "") = none) :
    main env argv
      = { fontOpened := false, conv := none,
          outcome := MainOutcome.uncaught
            ("invalid literal for int: " ++ argv.getD 3 "") }
    ∧ (∀ q : String, (main env argv).outcome ≠ MainOutcome.inputNotFound q) := by
  have hlt : ¬ argv.length < 4 := by omega
  rw [List.getD_eq_getElem?_getD] at hw
  have hm : main env argv
      = { fontOpened := false, conv := none,
          outcome := MainOutcome.uncaught
            ("invalid literal for int: " ++ argv.getD 3 "") } := by
    rw [List.getD_eq_getElem?_getD]
    simp [main, hlt, hw]
  refine ⟨hm, ?_⟩
  intro q
  rw [hm]
  intro hc
  cases hc

/-- C9 witness. -/
theorem weight_parse_precedes_existence_witness :
    main envNoFile ["prog", "missing.ttf", "out.ttf", "abc"]
      = { fontOpened := false, conv := none,
          outcome := MainOutcome.uncaught ("invalid literal for int: " ++
            (["prog", "missing.ttf", "out.ttf", "abc"] : List String).getD 3 "") }
    ∧ (∀ q : String,
        (main envNoFile ["prog", "missing.ttf", "out.ttf", "abc"]).outcome
          ≠ MainOutcome.inputNotFound q) :=
  weight_parse_precedes_existence envNoFile
    ["prog", "missing.ttf", "out.ttf", "abc"] (by decide) (by decide)

/-- C10: for every input font with no `fvar` table, the conversion's entire
observable outcome — in particular the bytes written to the output file — does
not depend on the weight and italic arguments: two invocations with different
weight/italic values are identical. -/
theorem static_conversion_ignores_weight_italic (env : Env) (p : String)
    (h : (env.openFont p).fvar = none) (w₁ w₂ : Int) (i₁ i₂ : Bool) :
    convert_variable_to_static env p w₁ i₁
      = convert_variable_to_static env p w₂ i₂ := by
  unfold convert_variable_to_static
  simp [h]

/-- C10 witness. -/
theorem static_conversion_ignores_weight_italic_witness :
    convert_variable_to_static envOk "in.ttf" 100 false
      = convert_variable_to_static envOk "in.ttf" 700 true :=
  static_conversion_ignores_weight_italic envOk "in.ttf" rfl 100 700 false true

end ConvertToStatic
